import Mathlib

/-!
Verification development for the sqlite-vfs repository: a shallow embedding of
the lock/WAL-index coordinator (durable-object/src/server.rs), the wire codec
(durable-object/src/request.rs, response.rs, connection.rs) and the time
callbacks of the VFS shim (src/lib.rs), together with proofs about the
properties stated in the specification.

Machine integers (u8/u16/u32/u64/usize) are modelled as `Nat` with explicit
bounds where they matter.  Rust code that can panic (overflow-checked
subtraction on `usize`/`u64`, out-of-range slice indexing, `unwrap`) is
modelled with an explicit failure case instead of a silently total function.
-/

namespace SqliteVfs

/-- Five-level database file lock (request.rs, `enum Lock`, discriminants 1..5). -/
inductive Lock
  | none
  | shared
  | reserved
  | pending
  | exclusive
deriving DecidableEq, Repr

/-- WAL-index lock of a single connection (request.rs, `enum WalIndexLock`,
discriminants 1..3). -/
inductive WalIndexLock
  | none
  | shared
  | exclusive
deriving DecidableEq, Repr

/-- Open access mode (request.rs, `enum OpenAccess`, discriminants 1..4). -/
inductive OpenAccess
  | read
  | write
  | create
  | createNew
deriving DecidableEq, Repr

/-- Server-side lock state of one database path (server.rs, `enum FileLockState`).
The `count` fields are `usize` in the source. -/
inductive FileLockState
  | read (count : Nat)
  | reserved (count : Nat)
  | pending (count : Nat)
  | exclusive
deriving DecidableEq, Repr

/-- Count stored in a path lock state; `exclusive` carries none, we report 1 for
it so that the consistency hypothesis `from = shared → 1 ≤ count` is vacuous
there. -/
def FileLockState.count : FileLockState → Nat
  | .read c => c
  | .reserved c => c
  | .pending c => c
  | .exclusive => 1

/-- Outcome of `FileConnection::lock` (server.rs): `ok` is `Ok(true)` together
with the updated path state and connection lock, `refused` is `Ok(false)` (no
state change), `invalid` is the `Err("invalid lock transition …")` case, and
`crash` marks the `usize` subtraction `count - 1` underflowing (a Rust panic in
debug builds); it is only reachable from states that violate the reader-count
invariant. -/
inductive LockOutcome
  | ok (state : FileLockState) (conn : Lock)
  | refused
  | invalid
  | crash
deriving DecidableEq, Repr

/-- Shallow embedding of `FileConnection::lock` (server.rs lines 472..584).
Arguments: current path state, the connection's current lock (`self.conn_lock`),
and the requested lock `tgt`.  The match arms appear in source order. -/
def fcLock : FileLockState → Lock → Lock → LockOutcome
  -- Increment reader count when adding new shared lock.
  | .read c, .none, .shared => .ok (.read (c + 1)) .shared
  | .reserved c, .none, .shared => .ok (.reserved (c + 1)) .shared
  -- Don't allow new shared locks when there is a pending or exclusive lock.
  | .pending _, .none, .shared => .refused
  | .exclusive, .none, .shared => .refused
  -- Decrement reader count when removing shared lock (`FileLockState::decrement`,
  -- `count - 1` on usize: panics when count = 0).
  | .read c, .shared, .none =>
    if c = 0 then .crash else .ok (.read (c - 1)) .none
  | .reserved c, .shared, .none =>
    if c = 0 then .crash else .ok (.reserved (c - 1)) .none
  | .pending c, .shared, .none =>
    if c = 0 then .crash else .ok (.pending (c - 1)) .none
  -- Issue a reserved lock (`count - 1` on usize: panics when count = 0).
  | .read c, .shared, .reserved =>
    if c = 0 then .crash else .ok (.reserved (c - 1)) .reserved
  -- Return from reserved or pending to shared lock.
  | .reserved c, .reserved, .shared => .ok (.read (c + 1)) .shared
  | .pending c, .pending, .shared => .ok (.read (c + 1)) .shared
  -- Return from reserved or pending to none lock.
  | .reserved c, .reserved, .none => .ok (.read c) .none
  | .pending c, .pending, .none => .ok (.read c) .none
  -- Only a single write lock allowed.
  | .reserved _, .shared, .reserved => .refused
  | .pending _, .shared, .reserved => .refused
  | .exclusive, .shared, .reserved => .refused
  | .reserved _, .shared, .exclusive => .refused
  | .pending _, .shared, .exclusive => .refused
  | .exclusive, .shared, .exclusive => .refused
  -- Acquire an exclusive lock: `if matches!(Read { count: 1 }) || count == 0`.
  | .read c, .shared, .exclusive =>
    if c = 1 ∨ c = 0 then .ok .exclusive .exclusive
    else .ok (.pending (c - 1)) .pending
  | .reserved c, .reserved, .exclusive =>
    if c = 0 then .ok .exclusive .exclusive
    else .ok (.pending c) .pending
  | .pending c, .pending, .exclusive =>
    if c = 0 then .ok .exclusive .exclusive
    else .ok (.pending c) .pending
  -- Stop writing.
  | .exclusive, .exclusive, .shared => .ok (.read 1) .shared
  | .exclusive, .exclusive, .none => .ok (.read 0) .none
  -- invalid lock transition
  | _, _, _ => .invalid

/-- Transition table of spec §4.2.1, written row by row from the spec's words.
Rows carry the spec's side conditions (`Read{1}`, `Read{c>1}`, `Reserved{0}`,
`Reserved{c>0}`, …); any (state, from, tgt) combination not covered by a row
fails with the "invalid transition" outcome. -/
def specLockTable : FileLockState → Lock → Lock → LockOutcome
  -- Read / Reserved | None | Shared | S.count += 1; conn ← Shared
  | .read c, .none, .shared => .ok (.read (c + 1)) .shared
  | .reserved c, .none, .shared => .ok (.reserved (c + 1)) .shared
  -- Pending / Exclusive | None | Shared | refuse
  | .pending _, .none, .shared => .refused
  | .exclusive, .none, .shared => .refused
  -- Read / Reserved / Pending | Shared | None | S.count -= 1; conn ← None
  | .read c, .shared, .none => .ok (.read (c - 1)) .none
  | .reserved c, .shared, .none => .ok (.reserved (c - 1)) .none
  | .pending c, .shared, .none => .ok (.pending (c - 1)) .none
  -- Read{c} | Shared | Reserved | S ← Reserved{c-1}; conn ← Reserved
  | .read c, .shared, .reserved => .ok (.reserved (c - 1)) .reserved
  -- Reserved{c} | Reserved | Shared | S ← Read{c+1}; conn ← Shared
  | .reserved c, .reserved, .shared => .ok (.read (c + 1)) .shared
  -- Pending{c} | Pending | Shared | S ← Read{c+1}; conn ← Shared
  | .pending c, .pending, .shared => .ok (.read (c + 1)) .shared
  -- Reserved{c} | Reserved | None | S ← Read{c}; conn ← None
  | .reserved c, .reserved, .none => .ok (.read c) .none
  -- Pending{c} | Pending | None | S ← Read{c}; conn ← None
  | .pending c, .pending, .none => .ok (.read c) .none
  -- Reserved / Pending / Exclusive | Shared | Reserved / Exclusive | refuse
  | .reserved _, .shared, .reserved => .refused
  | .pending _, .shared, .reserved => .refused
  | .exclusive, .shared, .reserved => .refused
  | .reserved _, .shared, .exclusive => .refused
  | .pending _, .shared, .exclusive => .refused
  | .exclusive, .shared, .exclusive => .refused
  -- Read{1} | Shared | Exclusive | S ← Exclusive; conn ← Exclusive
  -- Read{c>1} | Shared | Exclusive | S ← Pending{c-1}; conn ← Pending
  | .read c, .shared, .exclusive =>
    if c = 1 then .ok .exclusive .exclusive
    else if 1 < c then .ok (.pending (c - 1)) .pending
    else .invalid
  -- Reserved{0} / Pending{0} | Reserved / Pending | Exclusive | S ← Exclusive
  -- Reserved{c>0} / Pending{c>0} | Reserved / Pending | Exclusive | S ← Pending{c}
  | .reserved c, .reserved, .exclusive =>
    if c = 0 then .ok .exclusive .exclusive else .ok (.pending c) .pending
  | .pending c, .pending, .exclusive =>
    if c = 0 then .ok .exclusive .exclusive else .ok (.pending c) .pending
  -- Exclusive | Exclusive | Shared | S ← Read{1}; conn ← Shared
  | .exclusive, .exclusive, .shared => .ok (.read 1) .shared
  -- Exclusive | Exclusive | None | S ← Read{0}; conn ← None
  | .exclusive, .exclusive, .none => .ok (.read 0) .none
  -- any other | fail with "invalid transition"
  | _, _, _ => .invalid

/-- C1 (counterexample): the claim "the coordinator's path-lock transition
function implements exactly the table of §4.2.1 … and fails with an invalid
transition error for every (S, from, tgt) combination not in the table" is false
at the concrete input S = Read{0}, from = Shared, tgt = Exclusive: that
combination is in no row of the table (the Shared→Exclusive rows cover only
Read{1} and Read{c>1}), yet the code grants an Exclusive lock because of its
`count == 0` guard instead of failing. -/
theorem c1_counterexample :
    fcLock (FileLockState.read 0) Lock.shared Lock.exclusive
        = LockOutcome.ok FileLockState.exclusive Lock.exclusive
      ∧ specLockTable (FileLockState.read 0) Lock.shared Lock.exclusive
        = LockOutcome.invalid
      ∧ fcLock (FileLockState.read 0) Lock.shared Lock.exclusive
        ≠ specLockTable (FileLockState.read 0) Lock.shared Lock.exclusive := by
  decide

/-- C1 (amended): the path-lock transition function implements exactly the
table of §4.2.1 — same new (path state, connection lock) pair on the table's
rows, refusal on its refusal rows, and an invalid-transition error on every
combination not in the table — for every (S, from, tgt) in which the path
state's count is at least 1 whenever the connection claims a Shared lock.
Combinations with from = Shared and count = 0 violate the spec's reader-count
invariant; on them the code instead grants Exclusive (for tgt = Exclusive) or
underflows the usize count (for tgt = None / Reserved). -/
theorem c1_path_lock_table (S : FileLockState) (f t : Lock)
    (h : f = Lock.shared → 1 ≤ S.count) :
    fcLock S f t = specLockTable S f t := by
  cases S <;> cases f <;> cases t <;>
    simp_all only [fcLock, specLockTable, FileLockState.count] <;>
    split_ifs <;> simp_all <;> omega

/-- C1 (witness): the amended theorem applied at the concrete input
S = Read{2}, from = Shared, tgt = Exclusive. -/
theorem c1_path_lock_table_witness :
    fcLock (FileLockState.read 2) Lock.shared Lock.exclusive
      = specLockTable (FileLockState.read 2) Lock.shared Lock.exclusive :=
  c1_path_lock_table (FileLockState.read 2) Lock.shared Lock.exclusive
    (by decide)

/-- Server-side lock state of one WAL-index region (server.rs,
`enum WalIndexLockState`); the default (`or_default`) is `Shared{0}`. -/
inductive WalIndexLockState
  | shared (count : Nat)
  | exclusive
deriving DecidableEq, Repr

/-- Shallow embedding of `transition_wal_index_lock` (server.rs lines
587..638): per-region transition from connection view `f` to target `t` given
the current region state; `none` is a refusal / invalid transition.  The match
arms appear in source order; `saturating_sub` is the truncated `Nat`
subtraction. -/
def transition_wal_index_lock :
    WalIndexLockState → WalIndexLock → WalIndexLock → Option WalIndexLockState
  -- no change between from and tgt
  | s, .none, .none => some s
  | s, .shared, .shared => some s
  | s, .exclusive, .exclusive => some s
  | .shared c, .none, .shared => some (.shared (c + 1))
  | .shared c, .none, .exclusive =>
    if c = 0 then some .exclusive else none
  | .shared c, .shared, .none => some (.shared (c - 1))
  | .shared c, .shared, .exclusive =>
    if c = 1 then some .exclusive else none
  | .exclusive, .exclusive, .none => some (.shared 0)
  | .exclusive, .exclusive, .shared => some (.shared 1)
  -- invalid state transition
  | _, _, _ => none

/-- Transition table of spec §4.2.2, written row by row from the spec's words
(`max(0, c-1)` is the truncated `Nat` subtraction `c - 1`). -/
def specWalIndexTable :
    WalIndexLockState → WalIndexLock → WalIndexLock → Option WalIndexLockState
  -- any | x | x | unchanged (identity)
  | s, .none, .none => some s
  | s, .shared, .shared => some s
  | s, .exclusive, .exclusive => some s
  -- Shared{c} | None | Shared | Shared{c+1}
  | .shared c, .none, .shared => some (.shared (c + 1))
  -- Shared{0} | None | Exclusive | Exclusive;  Shared{c>0} | None | Exclusive | refuse
  | .shared c, .none, .exclusive => if c = 0 then some .exclusive else none
  -- Shared{c} | Shared | None | Shared{max(0, c-1)}
  | .shared c, .shared, .none => some (.shared (c - 1))
  -- Shared{1} | Shared | Exclusive | Exclusive;  Shared{c≠1} | Shared | Exclusive | refuse
  | .shared c, .shared, .exclusive => if c = 1 then some .exclusive else none
  -- Exclusive | Exclusive | None | Shared{0}
  | .exclusive, .exclusive, .none => some (.shared 0)
  -- Exclusive | Exclusive | Shared | Shared{1}
  | .exclusive, .exclusive, .shared => some (.shared 1)
  -- any other | refuse
  | _, _, _ => none

/-- C2: the per-region WAL-index lock transition function implements exactly
the table of §4.2.2 — identity when from = tgt, the enumerated increment /
decrement / upgrade / downgrade rows, and a refusal for every other
combination. -/
theorem c2_wal_index_transition_table (s : WalIndexLockState)
    (f t : WalIndexLock) :
    transition_wal_index_lock s f t = specWalIndexTable s f t := by
  cases s <;> cases f <;> cases t <;>
    rfl

/-- Half-open band of region indices `[start, fin)` iterated by the Rust
`Range<u8>` in the `LockWalIndex` handler (empty when `fin ≤ start`). -/
def band (start fin : Nat) : List Nat := List.range' start (fin - start)

theorem mem_band {r start fin : Nat} :
    r ∈ band start fin ↔ start ≤ r ∧ r < fin := by
  simp only [band, List.mem_range'_1]
  omega

/-- Shallow embedding of the `Request::LockWalIndex` arm of
`FileConnection::handle_request` (server.rs lines 420..450).  The server's
`wal_index.locks` hash map and the connection's `wal_index_lock` hash map are
modelled extensionally as total functions (the `entry(region).or_default()`
calls make an absent entry indistinguishable from the default `Shared{0}` /
`None`).  Result: the response (`true` = `LockWalIndex`, `false` = `Denied`)
together with the region-state map and the connection view map afterwards.
The source first checks every region of the band and returns `Denied` before
any assignment if one refuses; only then does it apply the transition (the
`unwrap` in the apply loop is backed by the check). -/
def handleLockWalIndex (locks : Nat → WalIndexLockState)
    (conn : Nat → WalIndexLock) (start fin : Nat) (tgt : WalIndexLock) :
    Bool × (Nat → WalIndexLockState) × (Nat → WalIndexLock) :=
  if (band start fin).all
      (fun r => (transition_wal_index_lock (locks r) (conn r) tgt).isSome) then
    (true,
     fun r =>
       if start ≤ r ∧ r < fin then
         (transition_wal_index_lock (locks r) (conn r) tgt).getD (locks r)
       else locks r,
     fun r => if start ≤ r ∧ r < fin then tgt else conn r)
  else (false, locks, conn)

/-- C3: the LockWalIndex request is all-or-nothing over its band: it responds
`Denied` exactly when some region of the band refuses the per-region
transition, a denial mutates neither the region states nor the connection's
per-region view, and a grant applies the per-region transition to every
region of the band and touches nothing outside the band — so no request ever
mutates a strict subset of its band. -/
theorem c3_lock_wal_index_all_or_nothing
    (locks : Nat → WalIndexLockState) (conn : Nat → WalIndexLock)
    (start fin : Nat) (tgt : WalIndexLock)
    (ok : Bool) (locks' : Nat → WalIndexLockState) (conn' : Nat → WalIndexLock)
    (h : handleLockWalIndex locks conn start fin tgt = (ok, locks', conn')) :
    (ok = false ↔ ∃ r ∈ band start fin,
        transition_wal_index_lock (locks r) (conn r) tgt = Option.none)
    ∧ (ok = false → locks' = locks ∧ conn' = conn)
    ∧ (ok = true →
        (∀ r ∈ band start fin,
            transition_wal_index_lock (locks r) (conn r) tgt = some (locks' r)
              ∧ conn' r = tgt)
        ∧ ∀ r, r ∉ band start fin → locks' r = locks r ∧ conn' r = conn r) := by
  unfold handleLockWalIndex at h
  split_ifs at h with hall
  · simp only [Prod.mk.injEq] at h
    obtain ⟨h1, h2, h3⟩ := h
    subst h1; subst h2; subst h3
    simp only [List.all_eq_true, decide_eq_true_eq] at hall
    refine ⟨?_, by simp, fun _ => ⟨?_, ?_⟩⟩
    · constructor
      · intro hfalse; cases hfalse
      · rintro ⟨r, hr, hnone⟩
        have := hall r hr
        rw [hnone] at this
        cases this
    · intro r hr
      have hmem := mem_band.mp hr
      obtain ⟨v, hv⟩ := Option.isSome_iff_exists.mp (hall r hr)
      rw [hv]
      simp [hmem, hv]
    · intro r hr
      have hmem : ¬(start ≤ r ∧ r < fin) := fun hc => hr (mem_band.mpr hc)
      simp [hmem]
  · simp only [Prod.mk.injEq] at h
    obtain ⟨h1, h2, h3⟩ := h
    subst h1; subst h2; subst h3
    simp only [List.all_eq_true, decide_eq_true_eq] at hall
    push_neg at hall
    obtain ⟨r, hr, hnot⟩ := hall
    refine ⟨?_, fun _ => ⟨rfl, rfl⟩, ?_⟩
    · exact ⟨fun _ => ⟨r, hr, by
        cases he : transition_wal_index_lock (locks r) (conn r) tgt
        · rfl
        · rw [he] at hnot; cases hnot rfl⟩, fun _ => rfl⟩
    · intro hc; cases hc

/-- Region states of scenario S4: regions 0..4 are `Shared{1}` (held by some
other connection), everything else is at the default `Shared{0}`. -/
def s4Locks : Nat → WalIndexLockState :=
  fun r => if r < 5 then WalIndexLockState.shared 1 else WalIndexLockState.shared 0

/-- Connection view of scenario S4: the requesting connection holds no
WAL-index lock. -/
def s4Conn : Nat → WalIndexLock := fun _ => WalIndexLock.none

/-- C3 (witness): the all-or-nothing theorem applied to scenario S4 — band
`[2,4)`, target Exclusive, every band region at `Shared{1}` held by another
connection — where the request is denied without mutation. -/
theorem c3_lock_wal_index_all_or_nothing_witness :
    (false = false ↔ ∃ r ∈ band 2 4,
        transition_wal_index_lock (s4Locks r) (s4Conn r) WalIndexLock.exclusive
          = Option.none)
    ∧ (false = false → s4Locks = s4Locks ∧ s4Conn = s4Conn)
    ∧ (false = true →
        (∀ r ∈ band 2 4,
            transition_wal_index_lock (s4Locks r) (s4Conn r) WalIndexLock.exclusive
              = some (s4Locks r) ∧ s4Conn r = WalIndexLock.exclusive)
        ∧ ∀ r, r ∉ band 2 4 → s4Locks r = s4Locks r ∧ s4Conn r = s4Conn r) :=
  c3_lock_wal_index_all_or_nothing s4Locks s4Conn 2 4 WalIndexLock.exclusive
    false s4Locks s4Conn rfl

/-- Coordinator-side state of one database path: the shared `FileLockState`
and the multiset of `conn_lock` views of the currently open `FileConnection`s
(server.rs: one `Rc<RefCell<FileLockState>>` per path, one `conn_lock : Lock`
per connection; all handlers run on one thread, so requests interleave at
whole-request granularity). -/
structure Sys where
  fl : FileLockState
  conns : Multiset Lock
deriving DecidableEq

/-- A freshly installed path state: `FileLockState::default()` is `Read{0}`
and no connection is open. -/
def initSys : Sys := ⟨FileLockState.read 0, 0⟩

/-- One observable step of the coordinator on a single path: a granted or
denied `Lock` request by one connection (`FileConnection::handle_request`,
`Lock` arm), a new connection opening (its `conn_lock` starts at `None`), or a
connection dropping (`impl Drop for FileConnection`: a held lock is released
via `lock(Lock::None)`; a failed release is only logged and the connection
goes away regardless). -/
inductive Step : Sys → Sys → Prop
  | request (s : Sys) (f tgt : Lock) (fl' : FileLockState) (cl' : Lock)
      (hmem : f ∈ s.conns) (hok : fcLock s.fl f tgt = LockOutcome.ok fl' cl') :
      Step s ⟨fl', cl' ::ₘ s.conns.erase f⟩
  | denied (s : Sys) (f tgt : Lock) (hmem : f ∈ s.conns)
      (h : fcLock s.fl f tgt = LockOutcome.refused
        ∨ fcLock s.fl f tgt = LockOutcome.invalid) :
      Step s s
  | join (s : Sys) : Step s ⟨s.fl, Lock.none ::ₘ s.conns⟩
  | dropNone (s : Sys) (hmem : Lock.none ∈ s.conns) :
      Step s ⟨s.fl, s.conns.erase Lock.none⟩
  | dropUnlock (s : Sys) (f : Lock) (fl' : FileLockState) (cl' : Lock)
      (hmem : f ∈ s.conns) (hne : f ≠ Lock.none)
      (hok : fcLock s.fl f Lock.none = LockOutcome.ok fl' cl') :
      Step s ⟨fl', s.conns.erase f⟩
  | dropFail (s : Sys) (f : Lock) (hmem : f ∈ s.conns) (hne : f ≠ Lock.none)
      (hfail : ∀ fl' cl', fcLock s.fl f Lock.none ≠ LockOutcome.ok fl' cl') :
      Step s ⟨s.fl, s.conns.erase f⟩

/-- States reachable from a freshly installed path state. -/
inductive Reachable : Sys → Prop
  | init : Reachable initSys
  | step {s s' : Sys} : Reachable s → Step s s' → Reachable s'

/-- Consistency between the path state and the connection views (spec
invariants 1 and 2): the stored count equals the number of connections at
`Shared`, and the writer-intent level named by the path state is held by
exactly one connection. -/
def Inv : Sys → Prop
  | ⟨.read c, conns⟩ =>
      conns.count .shared = c ∧ conns.count .reserved = 0
        ∧ conns.count .pending = 0 ∧ conns.count .exclusive = 0
  | ⟨.reserved c, conns⟩ =>
      conns.count .shared = c ∧ conns.count .reserved = 1
        ∧ conns.count .pending = 0 ∧ conns.count .exclusive = 0
  | ⟨.pending c, conns⟩ =>
      conns.count .shared = c ∧ conns.count .reserved = 0
        ∧ conns.count .pending = 1 ∧ conns.count .exclusive = 0
  | ⟨.exclusive, conns⟩ =>
      conns.count .shared = 0 ∧ conns.count .reserved = 0
        ∧ conns.count .pending = 0 ∧ conns.count .exclusive = 1

theorem inv_step {s s' : Sys} (hinv : Inv s) (hstep : Step s s') : Inv s' := by
  cases hstep with
  | request f tgt fl' cl' hmem hok =>
    obtain ⟨fl, conns⟩ := s
    have h1 : 1 ≤ conns.count f := Multiset.one_le_count_iff_mem.mpr hmem
    cases fl <;> cases f <;> cases tgt <;>
      simp only [fcLock] at hok <;>
      (try split_ifs at hok with hc) <;>
      (try (injection hok with hfl hcl; subst hfl; subst hcl)) <;>
      simp_all [Inv, Multiset.count_cons, Multiset.count_erase_self,
        Multiset.count_erase_of_ne] <;>
      omega
  | denied f tgt hmem h => exact hinv
  | join =>
    obtain ⟨fl, conns⟩ := s
    cases fl <;> simp_all [Inv, Multiset.count_cons]
  | dropNone hmem =>
    obtain ⟨fl, conns⟩ := s
    cases fl <;> simp_all [Inv, Multiset.count_erase_self,
      Multiset.count_erase_of_ne]
  | dropUnlock f fl' cl' hmem hne hok =>
    obtain ⟨fl, conns⟩ := s
    have h1 : 1 ≤ conns.count f := Multiset.one_le_count_iff_mem.mpr hmem
    cases fl <;> cases f <;>
      simp only [fcLock] at hok <;>
      (try split_ifs at hok with hc) <;>
      (try (injection hok with hfl hcl; subst hfl; subst hcl)) <;>
      simp_all [Inv, Multiset.count_cons, Multiset.count_erase_self,
        Multiset.count_erase_of_ne] <;>
      omega
  | dropFail f hmem hne hfail =>
    obtain ⟨fl, conns⟩ := s
    have h1 : 1 ≤ conns.count f := Multiset.one_le_count_iff_mem.mpr hmem
    exfalso
    cases f with
    | none => exact hne rfl
    | shared =>
      cases fl with
      | read c =>
        have hc : c ≠ 0 := by simp only [Inv] at hinv; omega
        exact hfail (.read (c - 1)) .none (by simp [fcLock, hc])
      | reserved c =>
        have hc : c ≠ 0 := by simp only [Inv] at hinv; omega
        exact hfail (.reserved (c - 1)) .none (by simp [fcLock, hc])
      | pending c =>
        have hc : c ≠ 0 := by simp only [Inv] at hinv; omega
        exact hfail (.pending (c - 1)) .none (by simp [fcLock, hc])
      | exclusive => simp only [Inv] at hinv; omega
    | reserved =>
      cases fl with
      | reserved c => exact hfail (.read c) .none (by simp [fcLock])
      | read c => simp only [Inv] at hinv; omega
      | pending c => simp only [Inv] at hinv; omega
      | exclusive => simp only [Inv] at hinv; omega
    | pending =>
      cases fl with
      | pending c => exact hfail (.read c) .none (by simp [fcLock])
      | read c => simp only [Inv] at hinv; omega
      | reserved c => simp only [Inv] at hinv; omega
      | exclusive => simp only [Inv] at hinv; omega
    | exclusive =>
      cases fl with
      | exclusive => exact hfail (.read 0) .none (by simp [fcLock])
      | read c => simp only [Inv] at hinv; omega
      | reserved c => simp only [Inv] at hinv; omega
      | pending c => simp only [Inv] at hinv; omega

theorem reachable_inv {s : Sys} (h : Reachable s) : Inv s := by
  induction h with
  | init => simp [Inv, initSys]
  | step _ hstep ih => exact inv_step ih hstep

/-- C5: path-lock counts never go negative.  Counts are `usize` (here `Nat`),
so "negative" cannot be represented; the event that would produce a negative
count is the underflowing decrement `count - 1`, modelled as the
`LockOutcome.crash` outcome.  For every state reachable from the initial
`Read{0}` state by any sequence of lock transitions, joins and drops of any
number of connections: whenever some connection holds `Shared` the path
state's count is at least 1 (so the decrement performed when a Shared holder
releases is never applied to a count of 0), and no request any connection can
issue makes the transition function underflow. -/
theorem c5_count_never_negative (s : Sys) (h : Reachable s) :
    (Lock.shared ∈ s.conns → 1 ≤ s.fl.count)
    ∧ ∀ f ∈ s.conns, ∀ tgt, fcLock s.fl f tgt ≠ LockOutcome.crash := by
  have hinv := reachable_inv h
  obtain ⟨fl, conns⟩ := s
  constructor
  · intro hs
    have h1 : 1 ≤ conns.count Lock.shared :=
      Multiset.one_le_count_iff_mem.mpr hs
    cases fl <;> simp only [Inv] at hinv <;>
      simp only [FileLockState.count] <;> omega
  · intro f hmem tgt
    have h1 : 1 ≤ conns.count f := Multiset.one_le_count_iff_mem.mpr hmem
    cases fl <;> cases f <;> cases tgt <;>
      simp only [Inv] at hinv <;>
      simp only [fcLock] <;>
      (try split_ifs with hc) <;>
      simp_all <;>
      omega

/-- C5 (witness): the theorem applied at the initial state `Read{0}` with no
connections, which is reachable by `Reachable.init`. -/
theorem c5_count_never_negative_witness :
    (Lock.shared ∈ initSys.conns → 1 ≤ initSys.fl.count)
    ∧ ∀ f ∈ initSys.conns, ∀ tgt, fcLock initSys.fl f tgt ≠ LockOutcome.crash :=
  c5_count_never_negative initSys Reachable.init

/-- Big-endian byte string of width `w` for the value `n` (Rust
`to_be_bytes` on the `w`-byte unsigned integer types; values ≥ 256^w are
truncated exactly as the `as uN` casts truncate). -/
def beBytes : Nat → Nat → List Nat
  | 0, _ => []
  | w + 1, n => n / 256 ^ w % 256 :: beBytes w n

/-- Value of a big-endian byte string (Rust `uN::from_be_bytes`). -/
def fromBe (l : List Nat) : Nat := l.foldl (fun a b => a * 256 + b) 0

theorem beBytes_length (w n : Nat) : (beBytes w n).length = w := by
  induction w generalizing n with
  | zero => rfl
  | succ w ih => simp [beBytes, ih]

theorem foldl_beBytes (w n a : Nat) :
    (beBytes w n).foldl (fun a b => a * 256 + b) a = a * 256 ^ w + n % 256 ^ w := by
  induction w generalizing a with
  | zero => simp [beBytes, Nat.mod_one]
  | succ w ih =>
    have hsplit : n % 256 ^ (w + 1) = n % 256 ^ w + 256 ^ w * (n / 256 ^ w % 256) := by
      rw [pow_succ, Nat.mod_mul]
    simp only [beBytes, List.foldl_cons, ih]
    rw [hsplit]
    ring

theorem fromBe_beBytes {w n : Nat} (h : n < 256 ^ w) :
    fromBe (beBytes w n) = n := by
  unfold fromBe
  rw [foldl_beBytes]
  simp [Nat.mod_eq_of_lt h]

/-- Decode-side failures of the wire codec.  `crash` is a Rust panic (an
out-of-range slice index such as `data[0..2]` on a 1-byte slice, or the
`from_utf8(..).unwrap()` on invalid UTF-8); the others are the I/O errors the
source constructs (`ErrorKind::UnexpectedEof`, "invalid request/response
type", "invalid access", "invalid lock"). -/
inductive DecodeError
  | crash
  | unexpectedEof
  | invalidType (t : Nat)
  | invalidAccess (v : Nat)
  | invalidLock (v : Nat)
deriving DecidableEq, Repr

instance instDecEqExcept {ε α : Type} [DecidableEq ε] [DecidableEq α] :
    DecidableEq (Except ε α) := fun x y =>
  match x, y with
  | Except.ok a, Except.ok b =>
    if h : a = b then isTrue (congrArg Except.ok h)
    else isFalse (fun hc => h (Except.ok.inj hc))
  | Except.error a, Except.error b =>
    if h : a = b then isTrue (congrArg Except.error h)
    else isFalse (fun hc => h (Except.error.inj hc))
  | Except.ok _, Except.error _ => isFalse (fun hc => Except.noConfusion hc)
  | Except.error _, Except.ok _ => isFalse (fun hc => Except.noConfusion hc)

/-- Rust `uN::from_be_bytes(data[off..off+w].try_into() …)`: the slice
indexing panics when the slice is too short (the `map_err` to
`ErrorKind::UnexpectedEof` is unreachable because a successful `data[a..b]`
always has exactly `b - a` elements). -/
def readBEx (data : List Nat) (off w : Nat) : Except DecodeError Nat :=
  if off + w ≤ data.length then
    Except.ok (fromBe ((data.drop off).take w))
  else Except.error DecodeError.crash

/-- Rust `data.get(i).ok_or(ErrorKind::UnexpectedEof)` on a byte slice. -/
def getU8 (data : List Nat) (i : Nat) : Except DecodeError Nat :=
  match data[i]? with
  | some b => Except.ok b
  | Option.none => Except.error DecodeError.unexpectedEof

def isCont (b : Nat) : Bool := 0x80 ≤ b && b ≤ 0xBF

/-- RFC 3629 UTF-8 validity of a byte string, the check performed by Rust's
`std::str::from_utf8`. -/
def validUtf8 : List Nat → Bool
  | [] => true
  | b :: rest =>
    if b ≤ 0x7F then validUtf8 rest
    else if 0xC2 ≤ b && b ≤ 0xDF then
      match rest with
      | c1 :: rest1 => isCont c1 && validUtf8 rest1
      | [] => false
    else if b = 0xE0 then
      match rest with
      | c1 :: c2 :: rest2 =>
        (0xA0 ≤ c1 && c1 ≤ 0xBF) && isCont c2 && validUtf8 rest2
      | _ => false
    else if (0xE1 ≤ b && b ≤ 0xEC) || b = 0xEE || b = 0xEF then
      match rest with
      | c1 :: c2 :: rest2 => isCont c1 && isCont c2 && validUtf8 rest2
      | _ => false
    else if b = 0xED then
      match rest with
      | c1 :: c2 :: rest2 =>
        (0x80 ≤ c1 && c1 ≤ 0x9F) && isCont c2 && validUtf8 rest2
      | _ => false
    else if b = 0xF0 then
      match rest with
      | c1 :: c2 :: c3 :: rest3 =>
        (0x90 ≤ c1 && c1 ≤ 0xBF) && isCont c2 && isCont c3 && validUtf8 rest3
      | _ => false
    else if 0xF1 ≤ b && b ≤ 0xF3 then
      match rest with
      | c1 :: c2 :: c3 :: rest3 =>
        isCont c1 && isCont c2 && isCont c3 && validUtf8 rest3
      | _ => false
    else if b = 0xF4 then
      match rest with
      | c1 :: c2 :: c3 :: rest3 =>
        (0x80 ≤ c1 && c1 ≤ 0x8F) && isCont c2 && isCont c3 && validUtf8 rest3
      | _ => false
    else false

/-- Wire discriminant of `OpenAccess` (`*access as u16`). -/
def OpenAccess.toU16 : OpenAccess → Nat
  | .read => 1
  | .write => 2
  | .create => 3
  | .createNew => 4

/-- Wire discriminant of `Lock` (`*lock as u16`). -/
def Lock.toU16 : Lock → Nat
  | .none => 1
  | .shared => 2
  | .reserved => 3
  | .pending => 4
  | .exclusive => 5

/-- Wire discriminant of `WalIndexLock` (`*lock as u16`). -/
def WalIndexLock.toU16 : WalIndexLock → Nat
  | .none => 1
  | .shared => 2
  | .exclusive => 3

/-- Coordinator request (request.rs, `enum Request`); byte strings and UTF-8
paths are byte lists. -/
inductive Request
  | open_ (access : OpenAccess) (db : List Nat)
  | delete (db : List Nat)
  | exists_ (db : List Nat)
  | lock (lock : Lock)
  | get (start fin : Nat)
  | put (dst : Nat) (data : List Nat)
  | size
  | setLen (len : Nat)
  | reserved
  | getWalIndex (region : Nat)
  | putWalIndex (region : Nat) (data : List Nat)
  | lockWalIndex (start fin : Nat) (lock : WalIndexLock)
  | deleteWalIndex
deriving DecidableEq, Repr

/-- Coordinator response (response.rs, `enum Response`). -/
inductive Response
  | denied
  | open_
  | delete
  | exists_ (b : Bool)
  | lock (l : Lock)
  | get (data : List Nat)
  | put
  | size (n : Nat)
  | setLen
  | reserved (b : Bool)
  | getWalIndex (data : List Nat)
  | putWalIndex
  | lockWalIndex
  | deleteWalIndex
  | moved (b : Bool)
deriving DecidableEq, Repr

/-- Shallow embedding of `Request::encode` (request.rs lines 217..275):
2-byte big-endian type tag followed by the tag-specific fields. -/
def Request.encode : Request → List Nat
  | .open_ access db => beBytes 2 1 ++ beBytes 2 access.toU16 ++ db
  | .delete db => beBytes 2 2 ++ db
  | .exists_ db => beBytes 2 3 ++ db
  | .lock l => beBytes 2 4 ++ beBytes 2 l.toU16
  | .get s f => beBytes 2 5 ++ beBytes 8 s ++ beBytes 8 f
  | .put dst data => beBytes 2 6 ++ beBytes 8 dst ++ data
  | .size => beBytes 2 7
  | .setLen len => beBytes 2 8 ++ beBytes 8 len
  | .reserved => beBytes 2 9
  | .getWalIndex r => beBytes 2 10 ++ beBytes 4 r
  | .putWalIndex r data => beBytes 2 11 ++ beBytes 4 r ++ data
  | .lockWalIndex s f l => beBytes 2 12 ++ beBytes 1 s ++ beBytes 1 f ++ beBytes 2 l.toU16
  | .deleteWalIndex => beBytes 2 13

/-- Discriminant parse of `OpenAccess` in `Request::decode` (tag 1). -/
def parseAccess (v : Nat) : Except DecodeError OpenAccess :=
  if v = 1 then Except.ok .read
  else if v = 2 then Except.ok .write
  else if v = 3 then Except.ok .create
  else if v = 4 then Except.ok .createNew
  else Except.error (DecodeError.invalidAccess v)

/-- Discriminant parse of `Lock` in `Request::decode` / `Response::decode`. -/
def parseLock (v : Nat) : Except DecodeError Lock :=
  if v = 1 then Except.ok .none
  else if v = 2 then Except.ok .shared
  else if v = 3 then Except.ok .reserved
  else if v = 4 then Except.ok .pending
  else if v = 5 then Except.ok .exclusive
  else Except.error (DecodeError.invalidLock v)

/-- Discriminant parse of `WalIndexLock` in `Request::decode` (tag 12). -/
def parseWalLock (v : Nat) : Except DecodeError WalIndexLock :=
  if v = 1 then Except.ok .none
  else if v = 2 then Except.ok .shared
  else if v = 3 then Except.ok .exclusive
  else Except.error (DecodeError.invalidLock v)

/-- Shallow embedding of `Request::decode` (request.rs lines 72..215).  Each
fixed-width read `data[a..b]` is `readBEx` (panics, i.e. `crash`, when the
frame is shorter than `b`); the `LockWalIndex` start/end bytes use
`data.get(_)` and fail with `UnexpectedEof`; `PutWalIndex` checks that the
remainder is exactly 32768 bytes; the path of `Open`/`Delete`/`Exists` goes
through `from_utf8(..).unwrap()`, which panics on invalid UTF-8. -/
def Request.decode (data : List Nat) : Except DecodeError Request := do
  let t ← readBEx data 0 2
  if t = 1 then
    let v ← readBEx data 2 2
    let access ← parseAccess v
    if validUtf8 (data.drop 4) then pure (.open_ access (data.drop 4))
    else Except.error DecodeError.crash
  else if t = 2 then
    if validUtf8 (data.drop 2) then pure (.delete (data.drop 2))
    else Except.error DecodeError.crash
  else if t = 3 then
    if validUtf8 (data.drop 2) then pure (.exists_ (data.drop 2))
    else Except.error DecodeError.crash
  else if t = 4 then
    let v ← readBEx data 2 2
    let l ← parseLock v
    pure (.lock l)
  else if t = 5 then
    let s ← readBEx data 2 8
    let f ← readBEx data 10 8
    pure (.get s f)
  else if t = 6 then
    let dst ← readBEx data 2 8
    pure (.put dst (data.drop 10))
  else if t = 7 then pure .size
  else if t = 8 then
    let len ← readBEx data 2 8
    pure (.setLen len)
  else if t = 9 then pure .reserved
  else if t = 10 then
    let r ← readBEx data 2 4
    pure (.getWalIndex r)
  else if t = 11 then
    let r ← readBEx data 2 4
    if data.length - 6 = 32768 then pure (.putWalIndex r (data.drop 6))
    else Except.error DecodeError.unexpectedEof
  else if t = 12 then
    let s ← getU8 data 2
    let f ← getU8 data 3
    let v ← readBEx data 4 2
    let l ← parseWalLock v
    pure (.lockWalIndex s f l)
  else if t = 13 then pure .deleteWalIndex
  else Except.error (DecodeError.invalidType t)

/-- Shallow embedding of `Response::encode` (response.rs lines 90..129). -/
def Response.encode : Response → List Nat
  | .denied => beBytes 2 0
  | .open_ => beBytes 2 1
  | .delete => beBytes 2 2
  | .exists_ b => beBytes 2 3 ++ [if b then 1 else 0]
  | .lock l => beBytes 2 4 ++ beBytes 2 l.toU16
  | .get data => beBytes 2 5 ++ data
  | .put => beBytes 2 6
  | .size n => beBytes 2 7 ++ beBytes 8 n
  | .setLen => beBytes 2 8
  | .reserved b => beBytes 2 9 ++ [if b then 1 else 0]
  | .getWalIndex data => beBytes 2 10 ++ data
  | .putWalIndex => beBytes 2 11
  | .lockWalIndex => beBytes 2 12
  | .deleteWalIndex => beBytes 2 13
  | .moved b => beBytes 2 14 ++ [if b then 1 else 0]

/-- Shallow embedding of `Response::decode` (response.rs lines 28..88).  The
boolean payloads are read as `data.get(2) == Some(&1)` (never failing); the
`GetWalIndex` remainder must be exactly 32768 bytes. -/
def Response.decode (data : List Nat) : Except DecodeError Response := do
  let t ← readBEx data 0 2
  if t = 0 then pure .denied
  else if t = 1 then pure .open_
  else if t = 2 then pure .delete
  else if t = 3 then pure (.exists_ (data[2]? == some 1))
  else if t = 4 then
    let v ← readBEx data 2 2
    let l ← parseLock v
    pure (.lock l)
  else if t = 5 then pure (.get (data.drop 2))
  else if t = 6 then pure .put
  else if t = 7 then
    let n ← readBEx data 2 8
    pure (.size n)
  else if t = 8 then pure .setLen
  else if t = 9 then pure (.reserved (data[2]? == some 1))
  else if t = 10 then
    if data.length - 2 = 32768 then pure (.getWalIndex (data.drop 2))
    else Except.error DecodeError.unexpectedEof
  else if t = 11 then pure .putWalIndex
  else if t = 12 then pure .lockWalIndex
  else if t = 13 then pure .deleteWalIndex
  else if t = 14 then pure (.moved (data[2]? == some 1))
  else Except.error (DecodeError.invalidType t)

theorem drop_skip (x rest : List Nat) (off : Nat) (h : x.length ≤ off) :
    (x ++ rest).drop off = rest.drop (off - x.length) := by
  have hoff : off = x.length + (off - x.length) := by omega
  rw [hoff, List.drop_append]
  congr 1
  omega

theorem readBEx_skip (x rest : List Nat) (off w : Nat) (h : x.length ≤ off) :
    readBEx (x ++ rest) off w = readBEx rest (off - x.length) w := by
  unfold readBEx
  by_cases hc : off + w ≤ (x ++ rest).length
  · rw [if_pos hc, if_pos (by simp only [List.length_append] at hc ⊢; omega),
      drop_skip x rest off h]
  · rw [if_neg hc, if_neg (by simp only [List.length_append] at hc ⊢; omega)]

theorem readBEx_here (post : List Nat) (w n : Nat) (h : n < 256 ^ w) :
    readBEx (beBytes w n ++ post) 0 w = Except.ok n := by
  unfold readBEx
  rw [if_pos (by simp [beBytes_length])]
  rw [List.drop_zero, List.take_left' (beBytes_length w n), fromBe_beBytes h]

theorem readBEx_exact (w n : Nat) (h : n < 256 ^ w) :
    readBEx (beBytes w n) 0 w = Except.ok n := by
  have := readBEx_here [] w n h
  simpa using this

theorem getU8_skip (x rest : List Nat) (i : Nat) (h : x.length ≤ i) :
    getU8 (x ++ rest) i = getU8 rest (i - x.length) := by
  unfold getU8
  rw [List.getElem?_append_right h]

theorem getU8_beBytes (rest : List Nat) (n : Nat) (h : n < 256) :
    getU8 (beBytes 1 n ++ rest) 0 = Except.ok n := by
  simp [beBytes, getU8, Nat.mod_eq_of_lt h]

theorem getElem2_append (t x : Nat) :
    (beBytes 2 t ++ [x])[(2 : Nat)]? = some x := by
  rw [List.getElem?_append_right (by simp [beBytes_length])]
  simp [beBytes_length]

theorem boolByte (b : Bool) :
    ((some (if b then (1 : Nat) else 0) == some 1) : Bool) = b := by
  cases b <;> rfl

theorem parseAccess_toU16 (a : OpenAccess) : parseAccess a.toU16 = Except.ok a := by
  cases a <;> rfl

theorem parseLock_toU16 (l : Lock) : parseLock l.toU16 = Except.ok l := by
  cases l <;> rfl

theorem parseWalLock_toU16 (l : WalIndexLock) : parseWalLock l.toU16 = Except.ok l := by
  cases l <;> rfl

theorem openAccess_toU16_lt (a : OpenAccess) : a.toU16 < 256 ^ 2 := by
  cases a <;> decide

theorem lock_toU16_lt (l : Lock) : l.toU16 < 256 ^ 2 := by
  cases l <;> decide

theorem walIndexLock_toU16_lt (l : WalIndexLock) : l.toU16 < 256 ^ 2 := by
  cases l <;> decide

theorem exceptBind_ok {ε α β : Type} (a : α) (f : α → Except ε β) :
    (Except.ok a >>= f : Except ε β) = f a := rfl

theorem exceptBind_error {ε α β : Type} (e : ε) (f : α → Except ε β) :
    ((Except.error e : Except ε α) >>= f) = Except.error e := rfl

theorem exceptMap_ok {ε α β : Type} (a : α) (f : α → β) :
    (f <$> (Except.ok a : Except ε α)) = Except.ok (f a) := rfl

theorem exceptMap_error {ε α β : Type} (e : ε) (f : α → β) :
    (f <$> (Except.error e : Except ε α)) = Except.error e := rfl

theorem exceptPure {ε α : Type} (a : α) :
    (pure a : Except ε α) = Except.ok a := rfl

/-- Well-formed request values: numeric fields fit their wire width, byte
payloads are bytes, the `PutWalIndex` block is exactly 32768 bytes, and the
database paths of `Open`/`Delete`/`Exists` are valid UTF-8 (they come from
Rust `&str`s). -/
def WFRequest : Request → Prop
  | .open_ _ db => (∀ b ∈ db, b < 256) ∧ validUtf8 db = true
  | .delete db => (∀ b ∈ db, b < 256) ∧ validUtf8 db = true
  | .exists_ db => (∀ b ∈ db, b < 256) ∧ validUtf8 db = true
  | .lock _ => True
  | .get s f => s < 256 ^ 8 ∧ f < 256 ^ 8
  | .put dst data => dst < 256 ^ 8 ∧ ∀ b ∈ data, b < 256
  | .size => True
  | .setLen n => n < 256 ^ 8
  | .reserved => True
  | .getWalIndex r => r < 256 ^ 4
  | .putWalIndex r data => r < 256 ^ 4 ∧ data.length = 32768 ∧ ∀ b ∈ data, b < 256
  | .lockWalIndex s f _ => s < 256 ∧ f < 256
  | .deleteWalIndex => True

/-- Well-formed response values: numeric fields fit their wire width, byte
payloads are bytes, the `GetWalIndex` block is exactly 32768 bytes. -/
def WFResponse : Response → Prop
  | .get data => ∀ b ∈ data, b < 256
  | .size n => n < 256 ^ 8
  | .getWalIndex data => data.length = 32768 ∧ ∀ b ∈ data, b < 256
  | _ => True

/-- C4: codec round-trip — for every well-formed `Request` and `Response`
value `m`, decoding the bytes produced by encoding `m` yields `m` again, for
all tag variants of both tagged unions. -/
theorem c4_codec_roundtrip :
    (∀ m : Request, WFRequest m →
      Request.decode (Request.encode m) = Except.ok m)
    ∧ ∀ m : Response, WFResponse m →
      Response.decode (Response.encode m) = Except.ok m := by
  constructor
  · intro m hm
    cases m with
    | open_ a db =>
      obtain ⟨-, hu⟩ := hm
      simp [Request.encode, Request.decode, exceptBind_ok, exceptMap_ok,
        exceptPure, readBEx_skip, drop_skip, beBytes_length,
        readBEx_here _ _ _ (by decide : (1 : Nat) < 256 ^ 2),
        readBEx_here _ _ _ (openAccess_toU16_lt a), parseAccess_toU16, hu]
    | delete db =>
      obtain ⟨-, hu⟩ := hm
      simp [Request.encode, Request.decode, exceptBind_ok, exceptMap_ok,
        exceptPure, drop_skip, beBytes_length,
        readBEx_here _ _ _ (by decide : (2 : Nat) < 256 ^ 2), hu]
    | exists_ db =>
      obtain ⟨-, hu⟩ := hm
      simp [Request.encode, Request.decode, exceptBind_ok, exceptMap_ok,
        exceptPure, drop_skip, beBytes_length,
        readBEx_here _ _ _ (by decide : (3 : Nat) < 256 ^ 2), hu]
    | lock l =>
      simp [Request.encode, Request.decode, exceptBind_ok, exceptMap_ok,
        exceptPure, readBEx_skip, beBytes_length,
        readBEx_here _ _ _ (by decide : (4 : Nat) < 256 ^ 2),
        readBEx_exact _ _ (lock_toU16_lt l), parseLock_toU16]
    | get s f =>
      obtain ⟨hs, hf⟩ := hm
      simp [Request.encode, Request.decode, exceptBind_ok, exceptMap_ok,
        exceptPure, readBEx_skip, beBytes_length,
        readBEx_here _ _ _ (by decide : (5 : Nat) < 256 ^ 2),
        readBEx_here _ _ _ hs, readBEx_exact _ _ hf]
    | put dst data =>
      obtain ⟨hd, -⟩ := hm
      simp [Request.encode, Request.decode, exceptBind_ok, exceptMap_ok,
        exceptPure, readBEx_skip, drop_skip, beBytes_length,
        readBEx_here _ _ _ (by decide : (6 : Nat) < 256 ^ 2),
        readBEx_here _ _ _ hd]
    | size =>
      simp [Request.encode, Request.decode, exceptBind_ok, exceptPure,
        readBEx_exact _ _ (by decide : (7 : Nat) < 256 ^ 2)]
    | setLen n =>
      simp [Request.encode, Request.decode, exceptBind_ok, exceptMap_ok,
        exceptPure, readBEx_skip, beBytes_length,
        readBEx_here _ _ _ (by decide : (8 : Nat) < 256 ^ 2),
        readBEx_exact _ _ hm]
    | reserved =>
      simp [Request.encode, Request.decode, exceptBind_ok, exceptPure,
        readBEx_exact _ _ (by decide : (9 : Nat) < 256 ^ 2)]
    | getWalIndex r =>
      simp [Request.encode, Request.decode, exceptBind_ok, exceptMap_ok,
        exceptPure, readBEx_skip, beBytes_length,
        readBEx_here _ _ _ (by decide : (10 : Nat) < 256 ^ 2),
        readBEx_exact _ _ hm]
    | putWalIndex r data =>
      obtain ⟨hr, hlen, -⟩ := hm
      simp [Request.encode, Request.decode, exceptBind_ok, exceptMap_ok,
        exceptPure, readBEx_skip, drop_skip, beBytes_length,
        List.length_append,
        readBEx_here _ _ _ (by decide : (11 : Nat) < 256 ^ 2),
        readBEx_here _ _ _ hr, hlen]
    | lockWalIndex s f l =>
      obtain ⟨hs, hf⟩ := hm
      simp [Request.encode, Request.decode, exceptBind_ok, exceptMap_ok,
        exceptPure, readBEx_skip, getU8_skip, beBytes_length,
        readBEx_here _ _ _ (by decide : (12 : Nat) < 256 ^ 2),
        getU8_beBytes _ _ hs, getU8_beBytes _ _ hf,
        readBEx_exact _ _ (walIndexLock_toU16_lt l), parseWalLock_toU16]
    | deleteWalIndex =>
      simp [Request.encode, Request.decode, exceptBind_ok, exceptPure,
        readBEx_exact _ _ (by decide : (13 : Nat) < 256 ^ 2)]
  · intro m hm
    cases m with
    | denied =>
      simp [Response.encode, Response.decode, exceptBind_ok, exceptPure,
        readBEx_exact _ _ (by decide : (0 : Nat) < 256 ^ 2)]
    | open_ =>
      simp [Response.encode, Response.decode, exceptBind_ok, exceptPure,
        readBEx_exact _ _ (by decide : (1 : Nat) < 256 ^ 2)]
    | delete =>
      simp [Response.encode, Response.decode, exceptBind_ok, exceptPure,
        readBEx_exact _ _ (by decide : (2 : Nat) < 256 ^ 2)]
    | exists_ b =>
      cases b <;>
        simp [Response.encode, Response.decode, exceptBind_ok, exceptPure,
          readBEx_here _ _ _ (by decide : (3 : Nat) < 256 ^ 2),
          getElem2_append]
    | lock l =>
      simp [Response.encode, Response.decode, exceptBind_ok, exceptMap_ok,
        exceptPure, readBEx_skip, beBytes_length,
        readBEx_here _ _ _ (by decide : (4 : Nat) < 256 ^ 2),
        readBEx_exact _ _ (lock_toU16_lt l), parseLock_toU16]
    | get data =>
      simp [Response.encode, Response.decode, exceptBind_ok, exceptPure,
        drop_skip, beBytes_length,
        readBEx_here _ _ _ (by decide : (5 : Nat) < 256 ^ 2)]
    | put =>
      simp [Response.encode, Response.decode, exceptBind_ok, exceptPure,
        readBEx_exact _ _ (by decide : (6 : Nat) < 256 ^ 2)]
    | size n =>
      simp [Response.encode, Response.decode, exceptBind_ok, exceptMap_ok,
        exceptPure, readBEx_skip, beBytes_length,
        readBEx_here _ _ _ (by decide : (7 : Nat) < 256 ^ 2),
        readBEx_exact _ _ hm]
    | setLen =>
      simp [Response.encode, Response.decode, exceptBind_ok, exceptPure,
        readBEx_exact _ _ (by decide : (8 : Nat) < 256 ^ 2)]
    | reserved b =>
      cases b <;>
        simp [Response.encode, Response.decode, exceptBind_ok, exceptPure,
          readBEx_here _ _ _ (by decide : (9 : Nat) < 256 ^ 2),
          getElem2_append]
    | getWalIndex data =>
      obtain ⟨hlen, -⟩ := hm
      simp [Response.encode, Response.decode, exceptBind_ok, exceptPure,
        drop_skip, beBytes_length, List.length_append,
        readBEx_here _ _ _ (by decide : (10 : Nat) < 256 ^ 2), hlen]
    | putWalIndex =>
      simp [Response.encode, Response.decode, exceptBind_ok, exceptPure,
        readBEx_exact _ _ (by decide : (11 : Nat) < 256 ^ 2)]
    | lockWalIndex =>
      simp [Response.encode, Response.decode, exceptBind_ok, exceptPure,
        readBEx_exact _ _ (by decide : (12 : Nat) < 256 ^ 2)]
    | deleteWalIndex =>
      simp [Response.encode, Response.decode, exceptBind_ok, exceptPure,
        readBEx_exact _ _ (by decide : (13 : Nat) < 256 ^ 2)]
    | moved b =>
      cases b <;>
        simp [Response.encode, Response.decode, exceptBind_ok, exceptPure,
          readBEx_here _ _ _ (by decide : (14 : Nat) < 256 ^ 2),
          getElem2_append]

/-- C4 (witness): the round-trip theorem applied at the concrete request
`LockWalIndex{locks: 2..4, lock: Exclusive}` and the concrete response
`Moved(true)`. -/
theorem c4_codec_roundtrip_witness :
    Request.decode (Request.encode (Request.lockWalIndex 2 4 WalIndexLock.exclusive))
      = Except.ok (Request.lockWalIndex 2 4 WalIndexLock.exclusive)
    ∧ Response.decode (Response.encode (Response.moved true))
      = Except.ok (Response.moved true) :=
  ⟨c4_codec_roundtrip.1 (Request.lockWalIndex 2 4 WalIndexLock.exclusive)
      (by exact ⟨by decide, by decide⟩),
    c4_codec_roundtrip.2 (Response.moved true) trivial⟩

/-- C6: evaluation of the decoders at a failing input.  The claim says a frame
too short for a fixed-width field yields an unexpected-EOF I/O error and that
decode never panics; but on a 1-byte frame both decoders panic in the slice
indexing `data[0..2]` (the `try_into().map_err(UnexpectedEof)` behind it is
dead code, since a successful `data[0..2]` always has exactly 2 elements), so
the short-input case is a panic, not an `UnexpectedEof` error. -/
theorem c6_decode_short_input_panics :
    Request.decode [0] = Except.error DecodeError.crash
    ∧ Response.decode [0] = Except.error DecodeError.crash
    ∧ DecodeError.crash ≠ DecodeError.unexpectedEof := by
  decide

/-- Shallow embedding of `Connection::send` (connection.rs lines 37..46): the
frame is a 2-byte big-endian length counting itself
(`(size_of::<u16>() + payload.len()) as u16`) followed by the encoded
payload; `beBytes 2` performs exactly the `as u16` truncation. -/
def connSend (payload : List Nat) : List Nat :=
  beBytes 2 (2 + payload.length) ++ payload

/-- C7 (counterexample): the claim "every wire message is framed by a 4-byte
big-endian length … encoding LockWalIndex{locks: 2..4, lock: Exclusive}
produces a frame whose length field equals 10" is false: the length prefix
written by `Connection::send` is 2 bytes, and for this request the frame is
`[0, 8, 0, 12, 2, 4, 0, 3]` — length field 8 = 2 + 6, not the 10-byte
4-byte-length frame the claim describes. -/
theorem c7_counterexample :
    connSend (Request.encode (Request.lockWalIndex 2 4 WalIndexLock.exclusive))
      = [0, 8, 0, 12, 2, 4, 0, 3]
    ∧ connSend (Request.encode (Request.lockWalIndex 2 4 WalIndexLock.exclusive))
      ≠ [0, 0, 0, 10, 0, 12, 2, 4, 0, 3] := by
  decide

/-- C7 (amended): every wire message is framed by a 2-byte big-endian
unsigned length that counts itself, followed by the 2-byte big-endian type
tag and the tag-specific fields; the length field of any frame whose payload
fits a `u16` reads back as 2 + payload length, and the payload follows it
verbatim.  Encoding the request LockWalIndex{locks: 2..4, lock: Exclusive}
produces the frame `[0, 8, 0, 12, 2, 4, 0, 3]` — length field
2 + 2 + 1 + 1 + 2 = 8, type tag 12, start 0x02, end 0x04, lock 3 — and
decoding the frame body (the `buffer[2..msg_len]` slice the receive loop
hands to `decode`) yields the original request. -/
theorem c7_frame_layout :
    (∀ payload : List Nat, payload.length ≤ 65533 →
       fromBe ((connSend payload).take 2) = 2 + payload.length
       ∧ (connSend payload).drop 2 = payload)
    ∧ connSend (Request.encode (Request.lockWalIndex 2 4 WalIndexLock.exclusive))
      = [0, 8, 0, 12, 2, 4, 0, 3]
    ∧ Request.decode
        ((connSend (Request.encode
          (Request.lockWalIndex 2 4 WalIndexLock.exclusive))).drop 2)
      = Except.ok (Request.lockWalIndex 2 4 WalIndexLock.exclusive) := by
  refine ⟨fun payload hlen => ⟨?_, ?_⟩, by decide, by decide⟩
  · rw [connSend, List.take_left' (beBytes_length 2 _),
      fromBe_beBytes (by omega : 2 + payload.length < 256 ^ 2)]
  · rw [connSend, List.drop_left' (beBytes_length 2 _)]

/-- C7 (witness): the frame-layout theorem's universal part applied at the
concrete payload of LockWalIndex{locks: 2..4, lock: Exclusive}. -/
theorem c7_frame_layout_witness :
    fromBe ((connSend (Request.encode
        (Request.lockWalIndex 2 4 WalIndexLock.exclusive))).take 2)
      = 2 + (Request.encode (Request.lockWalIndex 2 4 WalIndexLock.exclusive)).length
    ∧ (connSend (Request.encode
        (Request.lockWalIndex 2 4 WalIndexLock.exclusive))).drop 2
      = Request.encode (Request.lockWalIndex 2 4 WalIndexLock.exclusive) :=
  c7_frame_layout.1
    (Request.encode (Request.lockWalIndex 2 4 WalIndexLock.exclusive))
    (by decide)

/-- Shallow embedding of `vfs::current_time_int64` (src/lib.rs lines
633..650, non-`sqlite_test` path): the constant `UNIX_EPOCH = 24405875 *
8640000` (the Unix epoch as milliseconds since the Julian epoch) is added to
`OffsetDateTime::now_utc().unix_timestamp()`, which is the current Unix time
in seconds. -/
def current_time_int64 (unixSeconds : Int) : Int :=
  unixSeconds + 24405875 * 8640000

/-- The `sqlite_test` branch of `vfs::current_time_int64`: the engine's
current time in seconds is multiplied by 1000 before adding the same
constant. -/
def current_time_int64_test_branch (secs : Int) : Int :=
  secs * 1000 + 24405875 * 8640000

/-- The value the spec says `current_time_int64` writes: current Unix time in
milliseconds plus `julian_offset_ms = 24405875 * 8640000`. -/
def spec_current_time_int64 (unixMs : Int) : Int :=
  unixMs + 24405875 * 8640000

/-- Shallow embedding of `vfs::current_time` (src/lib.rs lines 620..631): the
int64 value divided by 86400000.0 (exact division here). -/
def current_time (unixSeconds : Int) : ℚ :=
  (current_time_int64 unixSeconds : ℚ) / 86400000

/-- C8: at Unix time 86400 s (1970-01-02T00:00:00Z, i.e. 86400000 ms) the
code writes 210866760086400 — seconds added to a milliseconds offset — while
the claim's value `unix_epoch_ms + julian_offset_ms` is 210866846400000.  The
`sqlite_test` branch of the same function multiplies the seconds by 1000
before adding the offset and does produce the claimed value, so the
non-test path contradicts the code's own test branch: a missing `* 1000`.
The float callback does return the int64 value divided by 86400000. -/
theorem c8_current_time_divergence :
    current_time_int64 86400 = 210866760086400
    ∧ spec_current_time_int64 (86400 * 1000) = 210866846400000
    ∧ current_time_int64 86400 ≠ spec_current_time_int64 (86400 * 1000)
    ∧ current_time_int64_test_branch 86400 = spec_current_time_int64 (86400 * 1000)
    ∧ current_time 86400 = 210866760086400 / 86400000 := by
  refine ⟨by decide, by decide, by decide, by decide, ?_⟩
  norm_num [current_time, current_time_int64]

/-- Association list model of the `HashMap<u32, [u8; 32768]>` holding the
WAL-index regions; `insert` replaces an existing binding. -/
def insertRegion : List (Nat × List Nat) → Nat → List Nat → List (Nat × List Nat)
  | [], r, d => [(r, d)]
  | (k, v) :: rest, r, d =>
    if k = r then (r, d) :: rest else (k, v) :: insertRegion rest r d

def lookupRegion : List (Nat × List Nat) → Nat → Option (List Nat)
  | [], _ => Option.none
  | (k, v) :: rest, r => if k = r then some v else lookupRegion rest r

/-- Largest region index present, 0 for an empty map
(`wal_index.data.keys().max().cloned().unwrap_or(0)`). -/
def maxRegion (m : List (Nat × List Nat)) : Nat :=
  (m.map Prod.fst).foldr max 0

/-- Shallow embedding of the `Request::PutWalIndex` arm of
`FileConnection::handle_request` (server.rs lines 394..419): store the block
under its region index, then `set_len` the "-shm" sibling file to
`max_region * 32768` where `max_region` is the largest key of the map after
the store.  Result: the region map afterwards and the size handed to
`set_len`. -/
def handlePutWalIndex (wal : List (Nat × List Nat)) (r : Nat) (d : List Nat) :
    List (Nat × List Nat) × Nat :=
  let wal' := insertRegion wal r d
  (wal', maxRegion wal' * 32768)

theorem maxRegion_insertRegion (wal : List (Nat × List Nat)) (r : Nat)
    (d : List Nat) :
    maxRegion (insertRegion wal r d) = max r (maxRegion wal) := by
  induction wal with
  | nil => simp [insertRegion, maxRegion]
  | cons kv rest ih =>
    obtain ⟨k, v⟩ := kv
    by_cases hk : k = r
    · subst hk
      simp [insertRegion, maxRegion, Nat.max_left_comm, Nat.max_comm,
        Nat.max_self]
    · simp only [insertRegion, if_neg hk, maxRegion, List.map_cons,
        List.foldr_cons]
      have := ih
      simp only [maxRegion] at this
      omega

theorem lookupRegion_insertRegion_self (wal : List (Nat × List Nat)) (r : Nat)
    (d : List Nat) :
    lookupRegion (insertRegion wal r d) r = some d := by
  induction wal with
  | nil => simp [insertRegion, lookupRegion]
  | cons kv rest ih =>
    obtain ⟨k, v⟩ := kv
    by_cases hk : k = r
    · subst hk
      simp [insertRegion, lookupRegion]
    · simp [insertRegion, lookupRegion, hk, ih]

theorem lookupRegion_insertRegion_ne (wal : List (Nat × List Nat))
    (r r' : Nat) (d : List Nat) (h : r' ≠ r) :
    lookupRegion (insertRegion wal r d) r' = lookupRegion wal r' := by
  induction wal with
  | nil => simp [insertRegion, lookupRegion, Ne.symm h]
  | cons kv rest ih =>
    obtain ⟨k, v⟩ := kv
    by_cases hk : k = r
    · subst hk
      have hne : ¬(k = r') := fun hc => h hc.symm
      simp [insertRegion, lookupRegion, hne]
    · by_cases hk' : k = r'
      · subst hk'
        simp [insertRegion, lookupRegion, hk]
      · simp [insertRegion, lookupRegion, hk, hk', ih]

/-- C9 (counterexample): the claim "resizes the sibling -shm file to
(max_region + 1) * 32768 bytes" is false at the concrete input of storing
region 0 into an empty WAL-index: the handler computes
`max_region * 32768 = 0`, not `(0 + 1) * 32768 = 32768`. -/
theorem c9_counterexample :
    (handlePutWalIndex [] 0 (List.replicate 32768 0)).2 = 0
    ∧ (handlePutWalIndex [] 0 (List.replicate 32768 0)).2 ≠ (0 + 1) * 32768 := by
  have h2 : (handlePutWalIndex [] 0 (List.replicate 32768 0)).2 = 0 := by
    show maxRegion (insertRegion [] 0 (List.replicate 32768 0)) * 32768 = 0
    rw [maxRegion_insertRegion]
    simp [maxRegion]
  exact ⟨h2, by rw [h2]; decide⟩

/-- C9 (amended): for every PutWalIndex{region, data} request, the handler
stores the block under that region index (other regions unchanged) and
resizes the sibling "-shm" marker file to `max_region * 32768` bytes — with
no `+ 1` — where `max_region` is the largest region index present in the
WAL-index after the store (equal to `max region (previous max)`). -/
theorem c9_put_wal_index (wal : List (Nat × List Nat)) (r : Nat)
    (d : List Nat) :
    lookupRegion (handlePutWalIndex wal r d).1 r = some d
    ∧ (∀ r', r' ≠ r →
        lookupRegion (handlePutWalIndex wal r d).1 r' = lookupRegion wal r')
    ∧ (handlePutWalIndex wal r d).2 = max r (maxRegion wal) * 32768 := by
  refine ⟨lookupRegion_insertRegion_self wal r d,
    fun r' h => lookupRegion_insertRegion_ne wal r r' d h, ?_⟩
  simp [handlePutWalIndex, maxRegion_insertRegion]

/-- C9 (witness): the amended theorem applied at storing region 0 into an
empty WAL-index, with the untouched-region part instantiated at region 5. -/
theorem c9_put_wal_index_witness :
    lookupRegion (handlePutWalIndex [] 0 (List.replicate 32768 0)).1 0
      = some (List.replicate 32768 0)
    ∧ lookupRegion (handlePutWalIndex [] 0 (List.replicate 32768 0)).1 5
      = lookupRegion [] 5
    ∧ (handlePutWalIndex [] 0 (List.replicate 32768 0)).2
      = max 0 (maxRegion []) * 32768 :=
  ⟨(c9_put_wal_index [] 0 (List.replicate 32768 0)).1,
    (c9_put_wal_index [] 0 (List.replicate 32768 0)).2.1 5 (by decide),
    (c9_put_wal_index [] 0 (List.replicate 32768 0)).2.2⟩

/-- Rust overflow-checked `u64` subtraction (`end - start` panics on
underflow in debug builds; in release it wraps and the subsequent
`buffer.resize` of ≈ 2^64 bytes aborts — either way no response is
produced). -/
def u64CheckedSub (a b : Nat) : Option Nat :=
  if b ≤ a then some (a - b) else Option.none

/-- Shallow embedding of the `Request::Get` arm of
`FileConnection::handle_request` (server.rs lines 329..348): seek to `start`,
resize the buffer to `end - start` zeroes, read repeatedly until the buffer
is full or a read returns 0 (EOF), truncate the buffer to the bytes read and
respond with it.  The read loop fills the buffer with the file contents from
offset `start`; `Option.none` models the underflow failure. -/
def handleGet (file : List Nat) (start fin : Nat) : Option (List Nat) :=
  match u64CheckedSub fin start with
  | some size => some ((file.drop start).take size)
  | Option.none => Option.none

/-- C10: the Get handler is only total under `start ≤ end`: for the input
`start = 1, end = 0` the size computation `end - start` underflows and no
response is produced; for every request with `start ≤ end`, the response is
the file contents from `start`, at most `end - start` bytes, truncated at
end-of-file. -/
theorem c10_get_underflow_and_truncation :
    handleGet [] 1 0 = Option.none
    ∧ ∀ (file : List Nat) (start fin : Nat), start ≤ fin →
        handleGet file start fin = some ((file.drop start).take (fin - start))
        ∧ ((file.drop start).take (fin - start)).length
          = min (fin - start) (file.length - start) := by
  refine ⟨by decide, fun file start fin h => ⟨?_, ?_⟩⟩
  · simp [handleGet, u64CheckedSub, h]
  · simp [List.length_take, List.length_drop]

/-- C10 (witness): the theorem's universal part applied at a 3-byte file and
the band [1, 5): 2 bytes come back, truncated at end-of-file. -/
theorem c10_get_underflow_and_truncation_witness :
    handleGet [5, 6, 7] 1 5 = some (([5, 6, 7].drop 1).take 4)
    ∧ (([5, 6, 7].drop 1).take 4).length = min 4 ([5, 6, 7].length - 1) :=
  c10_get_underflow_and_truncation.2 [5, 6, 7] 1 5 (by decide)

end SqliteVfs
